import Mathlib

/-!
# MenuStash: the stash menu controller of the FLARE engine

A shallow embedding of `MenuStash::add`, `MenuStash::drop` and
`MenuStash::itemReturn` (src/src/MenuStash.cpp) as functions on an explicit
controller state, followed by the properties of that code.

The collaborators of the controller that are declared outside MenuStash.cpp
(the item catalog, the item container `stock`) are parameters of the
embedding, collected in `Env`.  Every call the controller makes to a
collaborator is also recorded, in order, in the `effects` field of the state.
-/

namespace Flare

/-! ## Data model -/

/-- A screen position (`Point`). -/
structure Point where
  x : Int
  y : Int
deriving DecidableEq

/-- An `ItemStack`: an item identifier (`ItemID`, null is 0) and a quantity (`int`). -/
structure ItemStack where
  item : Nat
  quantity : Int
deriving DecidableEq

/-- Modelled from the spec: `ItemStack::empty()` is declared outside MenuStash.cpp.
The spec's data model: "Empty sentinel when quantity == 0 or identifier is null." -/
def ItemStack.empty (s : ItemStack) : Bool :=
  s.quantity == 0 || s.item == 0

/-- The quantity a stack carries: its `quantity`, and nothing when the stack is
the empty sentinel. -/
def ItemStack.count (s : ItemStack) : Int :=
  if s.empty then 0 else s.quantity

/-- The default-constructed `ItemStack()`: null identifier, quantity 0. -/
def ItemStack.cleared : ItemStack := { item := 0, quantity := 0 }

/-- Modelled from the spec: the item container `stock` (class `MenuItemStorage`,
declared outside MenuStash.cpp).  The spec: the container "owns the slot grid",
a slot is "one grid cell capable of holding a single item stack", and the drag
state is "an implicit previous-slot field"; `drag_prev_slot` is -1 when no
drag is active. -/
structure Stock where
  storage : List ItemStack
  drag_prev_slot : Int
deriving DecidableEq

/-- Reading `stock[slot]`.  An index outside the grid reads as the cleared stack. -/
def Stock.get (s : Stock) (slot : Int) : ItemStack :=
  if slot < 0 then ItemStack.cleared else s.storage.getD slot.toNat ItemStack.cleared

/-- Writing `stock[slot] = stack`.  An index outside the grid writes nothing. -/
def Stock.set (s : Stock) (slot : Int) (stack : ItemStack) : Stock :=
  if slot < 0 then s else { s with storage := s.storage.set slot.toNat stack }

/-- Sum of the quantities held in the slots of the grid. -/
def Stock.total (s : Stock) : Int :=
  (s.storage.map ItemStack.quantity).sum

/-- A call made by the controller to one of its collaborators. -/
inductive Effect where
  /-- A call `items->playSound(item)`. -/
  | playSound (item : Nat)
  /-- A call `pc->logMsg(msg->get(text), Avatar::MSG_NORMAL)`. -/
  | logMsg (text : String)
  /-- A read of `items->items[item].quest_item`. -/
  | questLookup (item : Nat)
  /-- A call `stock.slotOver(position)`. -/
  | slotOver (position : Point)
  /-- A call `stock.add(stack, slot)`. -/
  | stockAdd (stack : ItemStack) (slot : Int)
  /-- A call `stock.itemReturn(stack)`. -/
  | itemReturn (stack : ItemStack)
deriving DecidableEq

/-- The collaborators of the controller that MenuStash.cpp uses but does not define.
The last field is the container's side of the spec's lifecycle rule: the grid is
"sized once at construction ..., immutable thereafter". -/
structure Env where
  /-- The catalog flag `items->items[id].quest_item`. -/
  quest_item : Nat → Bool
  /-- The container's `stock.slotOver(position)`: a slot index, or -1 outside the grid. -/
  slotOver : Stock → Point → Int
  /-- The container's `stock.add(stack, slot)`: the new container and the leftover. -/
  stockAdd : Stock → ItemStack → Int → Stock × ItemStack
  /-- The container's `stock.itemReturn(stack)`. -/
  stockItemReturn : Stock → ItemStack → Stock
  /-- The constant `MenuStash::ADD_PLAY_SOUND`. -/
  ADD_PLAY_SOUND : Bool
  /-- Returning an item to the container does not resize the grid. -/
  itemReturn_size : ∀ (s : Stock) (stack : ItemStack),
    (stockItemReturn s stack).storage.length = s.storage.length

/-- The state of a `MenuStash` that `add` and `drop` read and write: the
container `stock`, the dirty flag `updated`, the overflow queue `drop_stack`
(`push` appends at the back), and the record of collaborator calls. -/
structure MenuStash where
  stock : Stock
  updated : Bool
  drop_stack : List ItemStack
  effects : List Effect
deriving DecidableEq

/-- Record one collaborator call. -/
def MenuStash.emit (m : MenuStash) (e : Effect) : MenuStash :=
  { m with effects := m.effects ++ [e] }

/-! ## Operations -/

/-- `void MenuStash::itemReturn(ItemStack stack)`: delegates to the container. -/
def MenuStash.itemReturn (env : Env) (m : MenuStash) (stack : ItemStack) : MenuStash :=
  { m with stock := env.stockItemReturn m.stock stack }.emit (Effect.itemReturn stack)

/-- `bool MenuStash::add(ItemStack stack, int slot, bool play_sound)`. -/
def MenuStash.add (env : Env) (m : MenuStash) (stack : ItemStack) (slot : Int)
    (play_sound : Bool) : Bool × MenuStash :=
  if stack.empty then
    (true, m)
  else
    let m1 := if play_sound then m.emit (Effect.playSound stack.item) else m
    let m2 := m1.emit (Effect.questLookup stack.item)
    if env.quest_item stack.item then
      let m3 := m2.emit (Effect.logMsg "Can not store quest items in the stash.")
      (false, { m3 with drop_stack := m3.drop_stack ++ [stack] })
    else
      let r := env.stockAdd m2.stock stack slot
      let leftover := r.2
      let m3 := { m2 with stock := r.1 }.emit (Effect.stockAdd stack slot)
      if !leftover.empty then
        let m4 := if leftover.quantity != stack.quantity then { m3 with updated := true } else m3
        let m5 := m4.emit (Effect.logMsg "Stash is full.")
        (false, { m5 with drop_stack := m5.drop_stack ++ [leftover] })
      else
        (true, { m3 with updated := true })

/-- `bool MenuStash::drop(const Point& position, ItemStack stack)`. -/
def MenuStash.drop (env : Env) (m : MenuStash) (position : Point) (stack : ItemStack) :
    Bool × MenuStash :=
  if stack.empty then
    (true, m)
  else
    let m1 := m.emit (Effect.playSound stack.item)
    let slot := env.slotOver m1.stock position
    let m2 := m1.emit (Effect.slotOver position)
    let drag_prev_slot := m2.stock.drag_prev_slot
    if slot == -1 then
      MenuStash.add env m2 stack slot (!env.ADD_PLAY_SOUND)
    else if drag_prev_slot != -1 then
      if (m2.stock.get slot).item == stack.item || (m2.stock.get slot).empty then
        MenuStash.add env m2 stack slot (!env.ADD_PLAY_SOUND)
      else if drag_prev_slot != -1 && (m2.stock.get drag_prev_slot).empty then
        let m3 := MenuStash.itemReturn env m2 (m2.stock.get slot)
        let m4 := { m3 with stock := m3.stock.set slot stack }
        (true, { m4 with updated := true })
      else
        let m3 := MenuStash.itemReturn env m2 stack
        (true, { m3 with updated := true })
    else
      MenuStash.add env m2 stack slot (!env.ADD_PLAY_SOUND)

/-! ## A concrete container

The container itself is not part of MenuStash.cpp.  The definitions below give
one container that fits the spec's description of it; the scenarios of the spec
are evaluated on it.  The general theorems do not depend on it. -/

/-- Whether `slot` indexes a cell of the grid. -/
def Stock.inGrid (s : Stock) (slot : Int) : Bool :=
  decide (0 ≤ slot) && decide (slot.toNat < s.storage.length)

/-- Modelled from the spec: placement of part of a stack in one cell (the
container's stacking rule is not under src).  The spec: a slot is "one grid cell
capable of holding a single item stack", a stack is "a quantity of a single item
type", and placement can be "partial".  A cell takes items of `item` when it is
empty or holds the same item, up to `cap` items per cell; the result is the new
cell and the quantity still to place. -/
def specPut (cap : Int) (item : Nat) (rest : Int) (cell : ItemStack) : ItemStack × Int :=
  let held := if cell.empty then 0 else cell.quantity
  let room := if cell.empty || cell.item == item then max (cap - held) 0 else 0
  let added := min rest room
  if 0 < added then ({ item := item, quantity := held + added }, rest - added) else (cell, rest)

/-- Modelled from the spec: "best-fit" placement over the cells of the grid in
order (the container's placement rule is not under src). -/
def specFill (cap : Int) (item : Nat) : Int → List ItemStack → List ItemStack × Int
  | rest, [] => ([], rest)
  | rest, cell :: cells =>
    let p := specPut cap item rest cell
    let r := specFill cap item p.2 cells
    (p.1 :: r.1, r.2)

/-- Modelled from the spec: the container's `add` (`stock.add`, not under src):
"placement ... at the given slot (or best-fit if slot is unspecified)", returning
"any leftover (partial/failed placement)". -/
def specAdd (cap : Int) (s : Stock) (stack : ItemStack) (slot : Int) : Stock × ItemStack :=
  if stack.empty then (s, ItemStack.cleared)
  else
    let p := if s.inGrid slot then specPut cap stack.item stack.quantity (s.get slot)
             else (s.get slot, stack.quantity)
    let s1 := s.set slot p.1
    let r := specFill cap stack.item p.2 s1.storage
    ({ s1 with storage := r.1 },
      if r.2 == 0 then ItemStack.cleared else { item := stack.item, quantity := r.2 })

/-- Modelled from the spec: the container's `itemReturn` (`stock.itemReturn`, not
under src): it "re-deposits a stack that a caller failed to place elsewhere,
preserving origin-slot semantics where possible"; the drag state is "cleared on
any terminal drop/cancel path". -/
def specItemReturn (cap : Int) (s : Stock) (stack : ItemStack) : Stock :=
  { (specAdd cap s stack s.drag_prev_slot).1 with drag_prev_slot := -1 }

/-- Modelled from the spec: the container's `slotOver` (not under src): it
"resolves screen position to a target slot index (-1 if outside grid)".  The
grid has `cols` columns of square cells of side `icon`, anchored at the origin. -/
def specSlotOver (cols : Nat) (icon : Int) (s : Stock) (position : Point) : Int :=
  if 0 ≤ position.x ∧ 0 ≤ position.y ∧ 0 < icon ∧ position.x < cols * icon then
    let slot := (position.y / icon) * cols + position.x / icon
    if slot.toNat < s.storage.length then slot else -1
  else -1

/-- The concrete collaborators used in the scenarios: item 9 is the only
quest-flagged item of the catalog, a cell takes up to 10 items, cells are 32
pixels wide, and `ADD_PLAY_SOUND` is true. -/
def specEnv (cols : Nat) : Env where
  quest_item := fun id => id == 9
  slotOver := specSlotOver cols 32
  stockAdd := specAdd 10
  stockItemReturn := specItemReturn 10
  ADD_PLAY_SOUND := true
  itemReturn_size := by
    have hfill : ∀ (cells : List ItemStack) (item : Nat) (rest : Int),
        (specFill 10 item rest cells).1.length = cells.length := by
      intro cells item
      induction cells with
      | nil => intro rest; rfl
      | cons c cs ih => intro rest; simp [specFill, ih]
    intro s stack
    unfold specItemReturn specAdd
    by_cases he : stack.empty = true
    · simp [he]
    · simp only [he, if_false, Bool.false_eq_true]
      rw [hfill]
      unfold Stock.set
      split <;> simp

/-! ## Measures used in the statements -/

/-- Quantity the container gained between two controller states. -/
def MenuStash.storedQuantity (m m' : MenuStash) : Int :=
  m'.stock.total - m.stock.total

/-- The entries of the overflow queue of `m'` beyond the length of the queue of `m`. -/
def MenuStash.pushed (m m' : MenuStash) : List ItemStack :=
  m'.drop_stack.drop m.drop_stack.length

/-- Quantity pushed onto the overflow queue between two controller states. -/
def MenuStash.pushedQuantity (m m' : MenuStash) : Int :=
  ((m.pushed m').map ItemStack.quantity).sum

/-- Quantity conservation of one call on `stack` at `slot`, from controller state
`m` to `m'`: what the container gained plus what was pushed onto the overflow
queue is the quantity of the stack; for a stack that is not quest-flagged the
queue gains the container's leftover when that is non-empty and nothing
otherwise; for a quest-flagged stack the container gains nothing and the queue
gains the stack. -/
def MenuStash.Conserves (env : Env) (m : MenuStash) (stack : ItemStack) (slot : Int)
    (m' : MenuStash) : Prop :=
  m.storedQuantity m' + m.pushedQuantity m' = stack.quantity ∧
  (env.quest_item stack.item = false →
    m'.drop_stack = m.drop_stack ++
      (if (env.stockAdd m.stock stack slot).2.empty then []
       else [(env.stockAdd m.stock stack slot).2])) ∧
  (env.quest_item stack.item = true →
    m.storedQuantity m' = 0 ∧ m.pushedQuantity m' = stack.quantity ∧
    m'.drop_stack = m.drop_stack ++ [stack])

/-! ## Scenario states

Item 1 is "itemA", items 2 and 3 are other ordinary items, item 9 is quest-flagged. -/

/-- A grid of 4 slots that are all full (10 items per cell); no drag is active. -/
def fullGrid : MenuStash where
  stock := { storage := [⟨2, 10⟩, ⟨2, 10⟩, ⟨3, 10⟩, ⟨1, 10⟩], drag_prev_slot := -1 }
  updated := false
  drop_stack := []
  effects := []

/-- A grid of 4 slots whose last cell has room for 3 more of item 1. -/
def nearlyFullGrid : MenuStash where
  stock := { storage := [⟨2, 10⟩, ⟨2, 10⟩, ⟨3, 10⟩, ⟨1, 7⟩], drag_prev_slot := -1 }
  updated := false
  drop_stack := []
  effects := []

/-- A grid of 8 slots during a drag that started at slot 2 and emptied it; slot 5
holds 3 of item 2. -/
def swapStart : MenuStash where
  stock :=
    { storage := [⟨1, 4⟩, ⟨0, 0⟩, ⟨0, 0⟩, ⟨0, 0⟩, ⟨0, 0⟩, ⟨2, 3⟩, ⟨0, 0⟩, ⟨0, 0⟩]
      drag_prev_slot := 2 }
  updated := false
  drop_stack := []
  effects := []

/-- A grid of 8 slots during a drag that started at slot 2 and took only part of
its stack: slot 2 still holds 4 of item 1; slot 5 holds 3 of item 2. -/
def rejectStart : MenuStash where
  stock :=
    { storage := [⟨0, 0⟩, ⟨0, 0⟩, ⟨1, 4⟩, ⟨0, 0⟩, ⟨0, 0⟩, ⟨2, 3⟩, ⟨0, 0⟩, ⟨0, 0⟩]
      drag_prev_slot := 2 }
  updated := false
  drop_stack := []
  effects := []

/-- A screen position inside the cell of slot 5 of a grid with 8 columns. -/
def overSlot5 : Point := ⟨163, 4⟩

/-- A container whose `add` stores 2 items of the stack in slot 0 and hands back
a leftover with the null identifier and the rest of the quantity. -/
def nullLeftoverEnv : Env where
  quest_item := fun _ => false
  slotOver := fun _ _ => -1
  stockAdd := fun s stack _ =>
    (s.set 0 { item := stack.item, quantity := 2 },
      { item := 0, quantity := stack.quantity - 2 })
  stockItemReturn := fun s _ => s
  ADD_PLAY_SOUND := true
  itemReturn_size := fun _ _ => rfl

/-- A grid of one empty slot; no drag is active. -/
def oneEmptySlot : MenuStash where
  stock := { storage := [⟨0, 0⟩], drag_prev_slot := -1 }
  updated := false
  drop_stack := []
  effects := []

/-! ## The four outcomes of `add` -/

/-- An empty stack: `add` returns true at once. -/
theorem add_of_empty (env : Env) (m : MenuStash) (stack : ItemStack) (slot : Int)
    (play_sound : Bool) (hempty : stack.empty = true) :
    MenuStash.add env m stack slot play_sound = (true, m) := by
  simp [MenuStash.add, hempty]

/-- A quest-flagged stack: `add` logs, pushes the stack and returns false. -/
theorem add_of_quest (env : Env) (m : MenuStash) (stack : ItemStack) (slot : Int)
    (play_sound : Bool) (hne : stack.empty = false)
    (hquest : env.quest_item stack.item = true) :
    MenuStash.add env m stack slot play_sound =
      (false,
        { stock := m.stock
          updated := m.updated
          drop_stack := m.drop_stack ++ [stack]
          effects := m.effects ++ (if play_sound then [Effect.playSound stack.item] else [])
            ++ [Effect.questLookup stack.item,
                Effect.logMsg "Can not store quest items in the stash."] }) := by
  cases play_sound <;> simp [MenuStash.add, MenuStash.emit, hne, hquest]

/-- The container hands back a non-empty leftover: `add` logs, pushes it and returns false. -/
theorem add_of_leftover (env : Env) (m : MenuStash) (stack : ItemStack) (slot : Int)
    (play_sound : Bool) (hne : stack.empty = false)
    (hquest : env.quest_item stack.item = false)
    (hleft : (env.stockAdd m.stock stack slot).2.empty = false) :
    MenuStash.add env m stack slot play_sound =
      (false,
        { stock := (env.stockAdd m.stock stack slot).1
          updated := if (env.stockAdd m.stock stack slot).2.quantity = stack.quantity
            then m.updated else true
          drop_stack := m.drop_stack ++ [(env.stockAdd m.stock stack slot).2]
          effects := m.effects ++ (if play_sound then [Effect.playSound stack.item] else [])
            ++ [Effect.questLookup stack.item, Effect.stockAdd stack slot,
                Effect.logMsg "Stash is full."] }) := by
  by_cases hq : (env.stockAdd m.stock stack slot).2.quantity = stack.quantity <;>
    cases play_sound <;> simp [MenuStash.add, MenuStash.emit, hne, hquest, hleft, hq]

/-- The container hands back an empty leftover: `add` sets `updated` and returns true. -/
theorem add_of_placed (env : Env) (m : MenuStash) (stack : ItemStack) (slot : Int)
    (play_sound : Bool) (hne : stack.empty = false)
    (hquest : env.quest_item stack.item = false)
    (hleft : (env.stockAdd m.stock stack slot).2.empty = true) :
    MenuStash.add env m stack slot play_sound =
      (true,
        { stock := (env.stockAdd m.stock stack slot).1
          updated := true
          drop_stack := m.drop_stack
          effects := m.effects ++ (if play_sound then [Effect.playSound stack.item] else [])
            ++ [Effect.questLookup stack.item, Effect.stockAdd stack slot] }) := by
  cases play_sound <;> simp [MenuStash.add, MenuStash.emit, hne, hquest, hleft]

/-- The result of `add`, its container, overflow queue and dirty flag do not
depend on the recorded calls or on `play_sound`. -/
theorem add_frame (env : Env) (m : MenuStash) (es : List Effect) (stack : ItemStack)
    (slot : Int) (ps ps' : Bool) :
    (MenuStash.add env { m with effects := es } stack slot ps').1
        = (MenuStash.add env m stack slot ps).1 ∧
    (MenuStash.add env { m with effects := es } stack slot ps').2.stock
        = (MenuStash.add env m stack slot ps).2.stock ∧
    (MenuStash.add env { m with effects := es } stack slot ps').2.drop_stack
        = (MenuStash.add env m stack slot ps).2.drop_stack ∧
    (MenuStash.add env { m with effects := es } stack slot ps').2.updated
        = (MenuStash.add env m stack slot ps).2.updated := by
  cases hne : stack.empty
  · cases hquest : env.quest_item stack.item
    · cases hleft : (env.stockAdd m.stock stack slot).2.empty
      · rw [add_of_leftover env m stack slot ps hne hquest hleft,
          add_of_leftover env { m with effects := es } stack slot ps' hne hquest hleft]
        simp
      · rw [add_of_placed env m stack slot ps hne hquest hleft,
          add_of_placed env { m with effects := es } stack slot ps' hne hquest hleft]
        simp
    · rw [add_of_quest env m stack slot ps hne hquest,
        add_of_quest env { m with effects := es } stack slot ps' hne hquest]
      simp
  · rw [add_of_empty env m stack slot ps hne, add_of_empty env { m with effects := es } stack slot ps' hne]
    simp

/-! ## The four outcomes of `drop` -/

/-- An empty stack: `drop` returns true at once. -/
theorem drop_of_empty (env : Env) (m : MenuStash) (position : Point) (stack : ItemStack)
    (hempty : stack.empty = true) :
    MenuStash.drop env m position stack = (true, m) := by
  simp [MenuStash.drop, hempty]

/-- Outside the grid, without an active drag, or onto an empty or matching slot:
`drop` plays the sound, resolves the slot and continues as `add`. -/
theorem drop_of_delegate (env : Env) (m : MenuStash) (position : Point) (stack : ItemStack)
    (hne : stack.empty = false)
    (hcond : env.slotOver m.stock position = -1 ∨ m.stock.drag_prev_slot = -1 ∨
      (m.stock.get (env.slotOver m.stock position)).empty = true ∨
      (m.stock.get (env.slotOver m.stock position)).item = stack.item) :
    MenuStash.drop env m position stack =
      MenuStash.add env
        { m with effects := m.effects ++ [Effect.playSound stack.item, Effect.slotOver position] }
        stack (env.slotOver m.stock position) (!env.ADD_PLAY_SOUND) := by
  unfold MenuStash.drop
  simp only [hne, MenuStash.emit, Bool.false_eq_true, if_false, List.append_assoc,
    List.singleton_append]
  by_cases h1 : env.slotOver m.stock position = -1
  · simp [h1]
  · by_cases h2 : m.stock.drag_prev_slot = -1
    · simp [h1, h2]
    · rcases hcond with h | h | h | h
      · exact absurd h h1
      · exact absurd h h2
      · simp [h1, h2, h]
      · simp [h1, h2, h]

/-- Onto a slot occupied by another item, the drag source being empty: the swap branch. -/
theorem drop_of_swap (env : Env) (m : MenuStash) (position : Point) (stack : ItemStack)
    (hne : stack.empty = false)
    (hslot : env.slotOver m.stock position ≠ -1)
    (hdrag : m.stock.drag_prev_slot ≠ -1)
    (hocc : (m.stock.get (env.slotOver m.stock position)).empty = false)
    (hdiff : (m.stock.get (env.slotOver m.stock position)).item ≠ stack.item)
    (hsrc : (m.stock.get m.stock.drag_prev_slot).empty = true) :
    MenuStash.drop env m position stack =
      (true,
        { stock := (env.stockItemReturn m.stock
              (m.stock.get (env.slotOver m.stock position))).set
              (env.slotOver m.stock position) stack
          updated := true
          drop_stack := m.drop_stack
          effects := m.effects ++ [Effect.playSound stack.item, Effect.slotOver position,
            Effect.itemReturn (m.stock.get (env.slotOver m.stock position))] }) := by
  unfold MenuStash.drop
  simp [hne, MenuStash.emit, MenuStash.itemReturn, hslot, hdrag, hocc, hdiff, hsrc]

/-- Onto a slot occupied by another item, the drag source still holding items:
the stack goes back through `itemReturn`. -/
theorem drop_of_reject (env : Env) (m : MenuStash) (position : Point) (stack : ItemStack)
    (hne : stack.empty = false)
    (hslot : env.slotOver m.stock position ≠ -1)
    (hdrag : m.stock.drag_prev_slot ≠ -1)
    (hocc : (m.stock.get (env.slotOver m.stock position)).empty = false)
    (hdiff : (m.stock.get (env.slotOver m.stock position)).item ≠ stack.item)
    (hsrc : (m.stock.get m.stock.drag_prev_slot).empty = false) :
    MenuStash.drop env m position stack =
      (true,
        { stock := env.stockItemReturn m.stock stack
          updated := true
          drop_stack := m.drop_stack
          effects := m.effects ++ [Effect.playSound stack.item, Effect.slotOver position,
            Effect.itemReturn stack] }) := by
  unfold MenuStash.drop
  simp [hne, MenuStash.emit, MenuStash.itemReturn, hslot, hdrag, hocc, hdiff, hsrc]

/-! ## Reading and writing slots -/

/-- A slot that reads as non-empty is a slot of the grid. -/
theorem Stock.inGrid_of_get_nonempty (s : Stock) (slot : Int)
    (h : (s.get slot).empty = false) : 0 ≤ slot ∧ slot.toNat < s.storage.length := by
  unfold Stock.get at h
  by_cases hneg : slot < 0
  · simp [hneg, ItemStack.cleared, ItemStack.empty] at h
  · refine ⟨not_lt.mp hneg, ?_⟩
    by_contra hlen
    rw [if_neg hneg, List.getD_eq_default _ _ (not_lt.mp hlen)] at h
    simp [ItemStack.cleared, ItemStack.empty] at h

/-- A slot of the grid reads back what was written to it. -/
theorem Stock.get_set_same (s : Stock) (slot : Int) (stack : ItemStack)
    (h0 : 0 ≤ slot) (hlen : slot.toNat < s.storage.length) :
    (s.set slot stack).get slot = stack := by
  have hneg : ¬ slot < 0 := not_lt.mpr h0
  simp [Stock.get, Stock.set, hneg, List.getD_eq_getElem?_getD, List.getElem?_set, hlen]

/-! ## Properties of the controller -/

/-- C9: an empty stack is a no-op success.  For an empty stack, `add` (every
slot, every `play_sound`) and `drop` (every position) return true and hand back
the controller state as it was: container, overflow queue, dirty flag and the
record of collaborator calls (so no sound, no catalog lookup, no container call). -/
theorem empty_stack_noop (env : Env) (m : MenuStash) (stack : ItemStack)
    (hempty : stack.empty = true) :
    (∀ (slot : Int) (play_sound : Bool),
      MenuStash.add env m stack slot play_sound = (true, m)) ∧
    (∀ position : Point, MenuStash.drop env m position stack = (true, m)) :=
  ⟨fun slot play_sound => add_of_empty env m stack slot play_sound hempty,
   fun position => drop_of_empty env m position stack hempty⟩

/-- C9 at a concrete input: the stack of item 1 with quantity 0, on the full grid. -/
theorem empty_stack_noop_witness :
    ItemStack.empty ⟨1, 0⟩ = true ∧
    (∀ (slot : Int) (play_sound : Bool),
      MenuStash.add (specEnv 4) fullGrid ⟨1, 0⟩ slot play_sound = (true, fullGrid)) ∧
    (∀ position : Point,
      MenuStash.drop (specEnv 4) fullGrid position ⟨1, 0⟩ = (true, fullGrid)) :=
  ⟨by decide, empty_stack_noop (specEnv 4) fullGrid ⟨1, 0⟩ (by decide)⟩

/-- C2: quest rejection in `add`.  For a non-empty stack whose item is
quest-flagged, for every slot and `play_sound`, `add` returns false, leaves the
container as it was, appends exactly the input stack to the overflow queue,
leaves `updated` as it was, and makes no call to the container's `add` (the
calls it makes are the optional sound, the catalog lookup and the log message). -/
theorem add_rejects_quest (env : Env) (m : MenuStash) (stack : ItemStack) (slot : Int)
    (play_sound : Bool) (hne : stack.empty = false)
    (hquest : env.quest_item stack.item = true) :
    (MenuStash.add env m stack slot play_sound).1 = false ∧
    (MenuStash.add env m stack slot play_sound).2.stock = m.stock ∧
    (MenuStash.add env m stack slot play_sound).2.drop_stack = m.drop_stack ++ [stack] ∧
    (MenuStash.add env m stack slot play_sound).2.updated = m.updated ∧
    (MenuStash.add env m stack slot play_sound).2.effects =
      m.effects ++ (if play_sound then [Effect.playSound stack.item] else [])
        ++ [Effect.questLookup stack.item,
            Effect.logMsg "Can not store quest items in the stash."] ∧
    (∀ (s : ItemStack) (k : Int),
      Effect.stockAdd s k ∉
        (MenuStash.add env m stack slot play_sound).2.effects.drop m.effects.length) := by
  rw [add_of_quest env m stack slot play_sound hne hquest]
  refine ⟨rfl, rfl, rfl, rfl, rfl, ?_⟩
  intro s k
  cases play_sound <;> simp

/-- C2 at a concrete input: one quest item (item 9) added at slot 5 of the
scenario grid, with sound. -/
theorem add_rejects_quest_witness :
    ItemStack.empty ⟨9, 1⟩ = false ∧ (specEnv 8).quest_item 9 = true ∧
    (MenuStash.add (specEnv 8) swapStart ⟨9, 1⟩ 5 true).1 = false ∧
    (MenuStash.add (specEnv 8) swapStart ⟨9, 1⟩ 5 true).2.stock = swapStart.stock ∧
    (MenuStash.add (specEnv 8) swapStart ⟨9, 1⟩ 5 true).2.drop_stack = [⟨9, 1⟩] :=
  have h := add_rejects_quest (specEnv 8) swapStart ⟨9, 1⟩ 5 true (by decide) (by decide)
  ⟨by decide, by decide, h.1, h.2.1, h.2.2.1⟩

/-- C4: leftover means failure in `add`.  For a non-empty, non-quest stack and
every slot, `add` returns true exactly when the leftover returned by the
container's `add` is empty; when the leftover is non-empty, `add` returns false
and the overflow queue gains exactly one entry, that leftover. -/
theorem add_true_iff_no_leftover (env : Env) (m : MenuStash) (stack : ItemStack)
    (slot : Int) (play_sound : Bool) (hne : stack.empty = false)
    (hquest : env.quest_item stack.item = false) :
    ((MenuStash.add env m stack slot play_sound).1 = true ↔
      (env.stockAdd m.stock stack slot).2.empty = true) ∧
    ((env.stockAdd m.stock stack slot).2.empty = false →
      (MenuStash.add env m stack slot play_sound).1 = false ∧
      (MenuStash.add env m stack slot play_sound).2.drop_stack =
        m.drop_stack ++ [(env.stockAdd m.stock stack slot).2]) := by
  cases hleft : (env.stockAdd m.stock stack slot).2.empty
  · rw [add_of_leftover env m stack slot play_sound hne hquest hleft]
    simp
  · rw [add_of_placed env m stack slot play_sound hne hquest hleft]
    simp

/-- C4 at the scenario of the claim: 5 of item 1 added to a grid of 4 slots that
are all full; the container hands all 5 back, `add` returns false and the
overflow queue gains the stack of item 1 with quantity 5. -/
theorem add_true_iff_no_leftover_witness :
    ItemStack.empty ⟨1, 5⟩ = false ∧ (specEnv 4).quest_item 1 = false ∧
    ((specEnv 4).stockAdd fullGrid.stock ⟨1, 5⟩ (-1)).2 = ⟨1, 5⟩ ∧
    (MenuStash.add (specEnv 4) fullGrid ⟨1, 5⟩ (-1) true).1 = false ∧
    (MenuStash.add (specEnv 4) fullGrid ⟨1, 5⟩ (-1) true).2.drop_stack = [⟨1, 5⟩] :=
  have h := (add_true_iff_no_leftover (specEnv 4) fullGrid ⟨1, 5⟩ (-1) true
    (by decide) (by decide)).2 (by decide)
  ⟨by decide, by decide, by decide, h.1, h.2⟩

/-- The overflow queue after `add`: unchanged when `add` returns true, one entry
longer when it returns false. -/
theorem add_overflow_cases (env : Env) (m : MenuStash) (stack : ItemStack) (slot : Int)
    (play_sound : Bool) :
    ((MenuStash.add env m stack slot play_sound).1 = true ∧
      (MenuStash.add env m stack slot play_sound).2.drop_stack = m.drop_stack) ∨
    ((MenuStash.add env m stack slot play_sound).1 = false ∧
      ∃ x, (MenuStash.add env m stack slot play_sound).2.drop_stack = m.drop_stack ++ [x]) := by
  cases hne : stack.empty
  · cases hquest : env.quest_item stack.item
    · cases hleft : (env.stockAdd m.stock stack slot).2.empty
      · rw [add_of_leftover env m stack slot play_sound hne hquest hleft]
        exact Or.inr ⟨rfl, _, rfl⟩
      · rw [add_of_placed env m stack slot play_sound hne hquest hleft]
        exact Or.inl ⟨rfl, rfl⟩
    · rw [add_of_quest env m stack slot play_sound hne hquest]
      exact Or.inr ⟨rfl, _, rfl⟩
  · rw [add_of_empty env m stack slot play_sound hne]
    exact Or.inl ⟨rfl, rfl⟩

/-- The overflow queue after `drop`: unchanged when `drop` returns true, one
entry longer when it returns false. -/
theorem drop_overflow_cases (env : Env) (m : MenuStash) (position : Point)
    (stack : ItemStack) :
    ((MenuStash.drop env m position stack).1 = true ∧
      (MenuStash.drop env m position stack).2.drop_stack = m.drop_stack) ∨
    ((MenuStash.drop env m position stack).1 = false ∧
      ∃ x, (MenuStash.drop env m position stack).2.drop_stack = m.drop_stack ++ [x]) := by
  cases hne : stack.empty
  · by_cases hcond : env.slotOver m.stock position = -1 ∨ m.stock.drag_prev_slot = -1 ∨
        (m.stock.get (env.slotOver m.stock position)).empty = true ∨
        (m.stock.get (env.slotOver m.stock position)).item = stack.item
    · rw [drop_of_delegate env m position stack hne hcond]
      exact add_overflow_cases env _ stack _ _
    · simp only [not_or] at hcond
      obtain ⟨hslot, hdrag, hocc, hdiff⟩ := hcond
      have hocc' : (m.stock.get (env.slotOver m.stock position)).empty = false := by
        simpa using hocc
      cases hsrc : (m.stock.get m.stock.drag_prev_slot).empty
      · rw [drop_of_reject env m position stack hne hslot hdrag hocc' hdiff hsrc]
        exact Or.inl ⟨rfl, rfl⟩
      · rw [drop_of_swap env m position stack hne hslot hdrag hocc' hdiff hsrc]
        exact Or.inl ⟨rfl, rfl⟩
  · rw [drop_of_empty env m position stack hne]
    exact Or.inl ⟨rfl, rfl⟩

/-- A list is not itself with one more entry. -/
theorem list_ne_append_singleton {α : Type} (l : List α) (x : α) : l ≠ l ++ [x] := by
  intro h
  have hlen := congrArg List.length h
  simp at hlen

/-- C10: the return value and the overflow queue move in lockstep.  For every
call of `add` (any stack, slot, `play_sound`) and of `drop` (any stack,
position, drag state): the call returns false exactly when it appended one
stack to the overflow queue, and returns true exactly when the overflow queue
is unchanged; so each call appends at most one entry and removes none.  `drop`
returns true whenever it takes the swap branch or the rejected-drop branch
(in-grid slot, active drag, destination occupied by a different item). -/
theorem result_overflow_lockstep (env : Env) (m : MenuStash) (stack : ItemStack) :
    (∀ (slot : Int) (play_sound : Bool),
      ((MenuStash.add env m stack slot play_sound).1 = false ↔
        ∃ x, (MenuStash.add env m stack slot play_sound).2.drop_stack = m.drop_stack ++ [x]) ∧
      ((MenuStash.add env m stack slot play_sound).1 = true ↔
        (MenuStash.add env m stack slot play_sound).2.drop_stack = m.drop_stack)) ∧
    (∀ position : Point,
      ((MenuStash.drop env m position stack).1 = false ↔
        ∃ x, (MenuStash.drop env m position stack).2.drop_stack = m.drop_stack ++ [x]) ∧
      ((MenuStash.drop env m position stack).1 = true ↔
        (MenuStash.drop env m position stack).2.drop_stack = m.drop_stack) ∧
      (stack.empty = false → env.slotOver m.stock position ≠ -1 →
        m.stock.drag_prev_slot ≠ -1 →
        (m.stock.get (env.slotOver m.stock position)).empty = false →
        (m.stock.get (env.slotOver m.stock position)).item ≠ stack.item →
        (MenuStash.drop env m position stack).1 = true)) := by
  have key : ∀ (r : Bool) (q : List ItemStack),
      ((r = true ∧ q = m.drop_stack) ∨ (r = false ∧ ∃ x, q = m.drop_stack ++ [x])) →
      ((r = false ↔ ∃ x, q = m.drop_stack ++ [x]) ∧ (r = true ↔ q = m.drop_stack)) := by
    intro r q h
    rcases h with ⟨hr, hq⟩ | ⟨hr, x, hq⟩
    · subst hr hq
      refine ⟨⟨fun h => by simp at h, fun ⟨x, hx⟩ => ?_⟩, ⟨fun _ => rfl, fun _ => rfl⟩⟩
      exact absurd hx (list_ne_append_singleton _ x)
    · subst hr hq
      refine ⟨⟨fun _ => ⟨x, rfl⟩, fun _ => rfl⟩, ⟨fun h => by simp at h, fun h => ?_⟩⟩
      exact absurd h.symm (list_ne_append_singleton _ x)
  refine ⟨fun slot play_sound => key _ _ (add_overflow_cases env m stack slot play_sound),
    fun position => ?_⟩
  obtain ⟨h1, h2⟩ := key _ _ (drop_overflow_cases env m position stack)
  refine ⟨h1, h2, ?_⟩
  intro hne hslot hdrag hocc hdiff
  cases hsrc : (m.stock.get m.stock.drag_prev_slot).empty
  · rw [drop_of_reject env m position stack hne hslot hdrag hocc hdiff hsrc]
  · rw [drop_of_swap env m position stack hne hslot hdrag hocc hdiff hsrc]

/-- C10 at a concrete input: on the rejected-drop scenario (5 of item 1 dropped
on slot 5 while slot 2 still holds items) `drop` returns true and the overflow
queue is unchanged. -/
theorem result_overflow_lockstep_witness :
    (MenuStash.drop (specEnv 8) rejectStart overSlot5 ⟨1, 5⟩).1 = true ∧
    (MenuStash.drop (specEnv 8) rejectStart overSlot5 ⟨1, 5⟩).2.drop_stack
      = rejectStart.drop_stack :=
  have h := (result_overflow_lockstep (specEnv 8) rejectStart ⟨1, 5⟩).2 overSlot5
  have ht := h.2.2 (by decide) (by decide) (by decide) (by decide) (by decide)
  ⟨ht, h.2.1.mp ht⟩

/-- C5: `drop` delegates to `add`.  For a non-empty stack and a position, with
`slot = stock.slotOver(position)`: when the slot is -1, or no drag is active, or
the destination slot is empty, or the destination slot holds the item of the
stack, `drop` returns what `add(stack, slot, play_sound)` returns from the same
state (for either value of `play_sound`), and leaves the same container, the
same overflow queue and the same dirty flag. -/
theorem drop_delegates_to_add (env : Env) (m : MenuStash) (position : Point)
    (stack : ItemStack) (play_sound : Bool) (hne : stack.empty = false)
    (hcond : env.slotOver m.stock position = -1 ∨ m.stock.drag_prev_slot = -1 ∨
      (m.stock.get (env.slotOver m.stock position)).empty = true ∨
      (m.stock.get (env.slotOver m.stock position)).item = stack.item) :
    (MenuStash.drop env m position stack).1
      = (MenuStash.add env m stack (env.slotOver m.stock position) play_sound).1 ∧
    (MenuStash.drop env m position stack).2.stock
      = (MenuStash.add env m stack (env.slotOver m.stock position) play_sound).2.stock ∧
    (MenuStash.drop env m position stack).2.drop_stack
      = (MenuStash.add env m stack (env.slotOver m.stock position) play_sound).2.drop_stack ∧
    (MenuStash.drop env m position stack).2.updated
      = (MenuStash.add env m stack (env.slotOver m.stock position) play_sound).2.updated := by
  rw [drop_of_delegate env m position stack hne hcond]
  exact add_frame env m _ stack _ play_sound _

/-- C5 at a concrete input: 5 of item 1 dropped over slot 5 of the nearly empty
8-slot grid while slot 5 holds item 2 and no drag is active: `drop` agrees with
`add` at slot 5. -/
theorem drop_delegates_to_add_witness :
    ItemStack.empty ⟨1, 5⟩ = false ∧
    (specEnv 8).slotOver swapStart.stock overSlot5 = 5 ∧
    (MenuStash.drop (specEnv 8)
        { swapStart with stock := { swapStart.stock with drag_prev_slot := -1 } }
        overSlot5 ⟨1, 5⟩).2.stock
      = (MenuStash.add (specEnv 8)
        { swapStart with stock := { swapStart.stock with drag_prev_slot := -1 } }
        ⟨1, 5⟩ 5 true).2.stock :=
  ⟨by decide, by decide,
    (drop_delegates_to_add (specEnv 8)
      { swapStart with stock := { swapStart.stock with drag_prev_slot := -1 } }
      overSlot5 ⟨1, 5⟩ true (by decide) (Or.inr (Or.inl rfl))).2.1⟩

/-- C6: swap on drop.  For a non-empty stack dropped on a slot `d` of the grid
that is occupied by a different item (a slot that reads as non-empty is in the
grid), while a drag is active and the drag source slot is empty: `drop` passes the former contents of slot `d` to
`itemReturn` (its only container call after `slotOver`), then writes the stack
into slot `d`, so slot `d` holds exactly the dropped stack; `updated` is true,
the overflow queue is unchanged, and `drop` returns true. -/
theorem drop_swaps (env : Env) (m : MenuStash) (position : Point) (stack : ItemStack)
    (hne : stack.empty = false)
    (hocc : (m.stock.get (env.slotOver m.stock position)).empty = false)
    (hdiff : (m.stock.get (env.slotOver m.stock position)).item ≠ stack.item)
    (hdrag : m.stock.drag_prev_slot ≠ -1)
    (hsrc : (m.stock.get m.stock.drag_prev_slot).empty = true) :
    (MenuStash.drop env m position stack).1 = true ∧
    (MenuStash.drop env m position stack).2.effects =
      m.effects ++ [Effect.playSound stack.item, Effect.slotOver position,
        Effect.itemReturn (m.stock.get (env.slotOver m.stock position))] ∧
    (MenuStash.drop env m position stack).2.stock =
      (env.stockItemReturn m.stock (m.stock.get (env.slotOver m.stock position))).set
        (env.slotOver m.stock position) stack ∧
    (MenuStash.drop env m position stack).2.stock.get (env.slotOver m.stock position)
      = stack ∧
    (MenuStash.drop env m position stack).2.updated = true ∧
    (MenuStash.drop env m position stack).2.drop_stack = m.drop_stack := by
  obtain ⟨h0, hlen⟩ := Stock.inGrid_of_get_nonempty _ _ hocc
  have hslot : env.slotOver m.stock position ≠ -1 := by
    intro h
    rw [h] at h0
    exact absurd h0 (by decide)
  rw [drop_of_swap env m position stack hne hslot hdrag hocc hdiff hsrc]
  refine ⟨rfl, rfl, rfl, ?_, rfl, rfl⟩
  apply Stock.get_set_same _ _ _ h0
  rw [env.itemReturn_size]
  exact hlen

/-- C6 at the scenario of the claim: a drag from slot 2 (now empty) dropped onto
slot 5, which holds 3 of item 2; the dragged stack is 5 of item 1.  The 3 of
item 2 go to `itemReturn`, slot 5 then holds the 5 of item 1. -/
theorem drop_swaps_witness :
    ItemStack.empty ⟨1, 5⟩ = false ∧
    (specEnv 8).slotOver swapStart.stock overSlot5 = 5 ∧
    swapStart.stock.get 5 = ⟨2, 3⟩ ∧
    swapStart.stock.drag_prev_slot = 2 ∧
    (swapStart.stock.get 2).empty = true ∧
    (MenuStash.drop (specEnv 8) swapStart overSlot5 ⟨1, 5⟩).1 = true ∧
    (MenuStash.drop (specEnv 8) swapStart overSlot5 ⟨1, 5⟩).2.effects =
      [Effect.playSound 1, Effect.slotOver overSlot5, Effect.itemReturn ⟨2, 3⟩] ∧
    (MenuStash.drop (specEnv 8) swapStart overSlot5 ⟨1, 5⟩).2.stock.get 5 = ⟨1, 5⟩ :=
  have h := drop_swaps (specEnv 8) swapStart overSlot5 ⟨1, 5⟩
    (by decide) (by decide) (by decide) (by decide) (by decide)
  ⟨by decide, by decide, by decide, rfl, by decide, h.1, h.2.1, h.2.2.2.1⟩

/-- C7 as stated fails: in the rejected-drop scenario (5 of item 1 dropped on
slot 5, which holds item 2, while the drag source slot 2 still holds 4 of item
1) the drop calls `itemReturn`, which re-deposits the stack at slot 2 and ends
the drag; the container after the drop is not the container before it. -/
theorem rejected_drop_changes_container :
    ItemStack.empty ⟨1, 5⟩ = false ∧
    (specEnv 8).slotOver rejectStart.stock overSlot5 = 5 ∧
    rejectStart.stock.get 5 = ⟨2, 3⟩ ∧
    rejectStart.stock.drag_prev_slot = 2 ∧
    rejectStart.stock.get 2 = ⟨1, 4⟩ ∧
    (MenuStash.drop (specEnv 8) rejectStart overSlot5 ⟨1, 5⟩).2.stock.get 2 = ⟨1, 9⟩ ∧
    (MenuStash.drop (specEnv 8) rejectStart overSlot5 ⟨1, 5⟩).2.stock ≠ rejectStart.stock := by
  decide

/-- C7, amended: rejected drop.  For a non-empty stack dropped on a slot of the
grid that is occupied by a different item, while a drag is active and the drag
source slot is still non-empty: `drop` calls `itemReturn` with exactly the
dropped stack, once, and writes no slot itself: the container after the drop is
the container's `itemReturn(stack)` applied to the container before it.  The
overflow queue is unchanged, `updated` is true and `drop` returns true. -/
theorem drop_rejected_returns_stack (env : Env) (m : MenuStash) (position : Point)
    (stack : ItemStack) (hne : stack.empty = false)
    (hocc : (m.stock.get (env.slotOver m.stock position)).empty = false)
    (hdiff : (m.stock.get (env.slotOver m.stock position)).item ≠ stack.item)
    (hdrag : m.stock.drag_prev_slot ≠ -1)
    (hsrc : (m.stock.get m.stock.drag_prev_slot).empty = false) :
    (MenuStash.drop env m position stack).2.effects =
      m.effects ++ [Effect.playSound stack.item, Effect.slotOver position,
        Effect.itemReturn stack] ∧
    (MenuStash.drop env m position stack).2.stock = env.stockItemReturn m.stock stack ∧
    (MenuStash.drop env m position stack).2.drop_stack = m.drop_stack ∧
    (MenuStash.drop env m position stack).2.updated = true ∧
    (MenuStash.drop env m position stack).1 = true := by
  obtain ⟨h0, _⟩ := Stock.inGrid_of_get_nonempty _ _ hocc
  have hslot : env.slotOver m.stock position ≠ -1 := by
    intro h
    rw [h] at h0
    exact absurd h0 (by decide)
  rw [drop_of_reject env m position stack hne hslot hdrag hocc hdiff hsrc]
  exact ⟨rfl, rfl, rfl, rfl, rfl⟩

/-- C7, amended, at the scenario of the claim: source slot 2 still holds an item,
destination slot 5 holds a different item. -/
theorem drop_rejected_returns_stack_witness :
    ItemStack.empty ⟨1, 5⟩ = false ∧
    (rejectStart.stock.get ((specEnv 8).slotOver rejectStart.stock overSlot5)).empty = false ∧
    (rejectStart.stock.get rejectStart.stock.drag_prev_slot).empty = false ∧
    (MenuStash.drop (specEnv 8) rejectStart overSlot5 ⟨1, 5⟩).2.effects =
      [Effect.playSound 1, Effect.slotOver overSlot5, Effect.itemReturn ⟨1, 5⟩] ∧
    (MenuStash.drop (specEnv 8) rejectStart overSlot5 ⟨1, 5⟩).2.stock =
      (specEnv 8).stockItemReturn rejectStart.stock ⟨1, 5⟩ :=
  have h := drop_rejected_returns_stack (specEnv 8) rejectStart overSlot5 ⟨1, 5⟩
    (by decide) (by decide) (by decide) (by decide) (by decide)
  ⟨by decide, by decide, by decide, h.1, h.2.1⟩

/-- C3 fails on the swap branch of `drop`: in the swap scenario no slot of the
grid holds a quest-flagged item; one quest item (item 9) dropped on slot 5 is
written to slot 5 without the quest check that `add` makes, so after the drop
slot 5 holds a quest-flagged item, `drop` returns true and nothing goes to the
overflow queue. -/
theorem drop_swap_stores_quest_item :
    (∀ cell ∈ swapStart.stock.storage, (specEnv 8).quest_item cell.item = false) ∧
    (specEnv 8).quest_item 9 = true ∧
    ItemStack.empty ⟨9, 1⟩ = false ∧
    (MenuStash.drop (specEnv 8) swapStart overSlot5 ⟨9, 1⟩).1 = true ∧
    (MenuStash.drop (specEnv 8) swapStart overSlot5 ⟨9, 1⟩).2.stock.get 5 = ⟨9, 1⟩ ∧
    (MenuStash.drop (specEnv 8) swapStart overSlot5 ⟨9, 1⟩).2.drop_stack = [] ∧
    (specEnv 8).quest_item
      ((MenuStash.drop (specEnv 8) swapStart overSlot5 ⟨9, 1⟩).2.stock.get 5).item = true := by
  decide

/-- Conservation looks only at the container and the overflow queue of the final state. -/
theorem conserves_congr (env : Env) (m : MenuStash) (stack : ItemStack) (slot : Int)
    (m1 m2 : MenuStash) (hstock : m1.stock = m2.stock)
    (hqueue : m1.drop_stack = m2.drop_stack) (h : m.Conserves env stack slot m2) :
    m.Conserves env stack slot m1 := by
  unfold MenuStash.Conserves MenuStash.storedQuantity MenuStash.pushedQuantity
    MenuStash.pushed at *
  rw [hstock, hqueue]
  exact h

/-- Conservation for `add`, given that the leftover carries what the container did not store. -/
theorem add_conserves (env : Env) (m : MenuStash) (stack : ItemStack) (slot : Int)
    (play_sound : Bool) (hne : stack.empty = false)
    (hleft : env.quest_item stack.item = false →
      (env.stockAdd m.stock stack slot).2.count =
        stack.quantity - ((env.stockAdd m.stock stack slot).1.total - m.stock.total)) :
    m.Conserves env stack slot (MenuStash.add env m stack slot play_sound).2 := by
  unfold MenuStash.Conserves MenuStash.storedQuantity MenuStash.pushedQuantity
    MenuStash.pushed
  cases hquest : env.quest_item stack.item
  · have hl := hleft hquest
    unfold ItemStack.count at hl
    cases hempty : (env.stockAdd m.stock stack slot).2.empty
    · rw [hempty] at hl
      rw [add_of_leftover env m stack slot play_sound hne hquest hempty]
      simp at hl ⊢
      omega
    · rw [hempty] at hl
      rw [add_of_placed env m stack slot play_sound hne hquest hempty]
      simp at hl ⊢
      omega
  · rw [add_of_quest env m stack slot play_sound hne hquest]
    simp

/-- C1 as stated fails: 5 of item 1 added to a grid of one empty slot, on a
container that stores 2 of them and returns the leftover with the null
identifier and quantity 3.  The leftover has quantity = stack.quantity minus
the quantity stored, as the claim asks; it is empty (null identifier), so the
guard `!leftover.empty()` of `add` pushes nothing and `add` returns true: 2
stored plus 0 pushed is not 5. -/
theorem null_leftover_not_conserved :
    ItemStack.empty ⟨1, 5⟩ = false ∧
    nullLeftoverEnv.quest_item 1 = false ∧
    (nullLeftoverEnv.stockAdd oneEmptySlot.stock ⟨1, 5⟩ (-1)).2 = ⟨0, 3⟩ ∧
    (nullLeftoverEnv.stockAdd oneEmptySlot.stock ⟨1, 5⟩ (-1)).1.total
      - oneEmptySlot.stock.total = 2 ∧
    (nullLeftoverEnv.stockAdd oneEmptySlot.stock ⟨1, 5⟩ (-1)).2.quantity =
      5 - ((nullLeftoverEnv.stockAdd oneEmptySlot.stock ⟨1, 5⟩ (-1)).1.total
        - oneEmptySlot.stock.total) ∧
    (MenuStash.add nullLeftoverEnv oneEmptySlot ⟨1, 5⟩ (-1) true).1 = true ∧
    (MenuStash.add nullLeftoverEnv oneEmptySlot ⟨1, 5⟩ (-1) true).2.drop_stack = [] ∧
    oneEmptySlot.storedQuantity
        (MenuStash.add nullLeftoverEnv oneEmptySlot ⟨1, 5⟩ (-1) true).2 = 2 ∧
    oneEmptySlot.pushedQuantity
        (MenuStash.add nullLeftoverEnv oneEmptySlot ⟨1, 5⟩ (-1) true).2 = 0 ∧
    ¬ oneEmptySlot.Conserves nullLeftoverEnv ⟨1, 5⟩ (-1)
        (MenuStash.add nullLeftoverEnv oneEmptySlot ⟨1, 5⟩ (-1) true).2 := by
  refine ⟨by decide, by decide, by decide, by decide, by decide, by decide, by decide,
    by decide, by decide, ?_⟩
  intro h
  exact absurd h.1 (by decide)

/-- C1, amended: quantity conservation.  For a non-empty stack and a slot, given
(when the stack is not quest-flagged) a container whose `add(stack, slot)`
returns a leftover with quantity = stack.quantity minus the quantity it stored,
and whose leftover has quantity 0 when it is empty: `add` pushes onto the
overflow queue exactly that leftover when it is non-empty and nothing when it
is empty, and the quantity stored in the container plus the quantity pushed
onto the overflow queue is stack.quantity; for a quest-flagged stack the whole
stack is pushed and 0 is stored.  The same holds for `drop` at every position
that resolves to that slot on every path where `drop` delegates to `add`. -/
theorem quantity_conserved (env : Env) (m : MenuStash) (stack : ItemStack) (slot : Int)
    (hne : stack.empty = false)
    (hleft : env.quest_item stack.item = false →
      (env.stockAdd m.stock stack slot).2.quantity =
        stack.quantity - ((env.stockAdd m.stock stack slot).1.total - m.stock.total))
    (hclear : env.quest_item stack.item = false →
      (env.stockAdd m.stock stack slot).2.empty = true →
      (env.stockAdd m.stock stack slot).2.quantity = 0) :
    (∀ play_sound : Bool,
      m.Conserves env stack slot (MenuStash.add env m stack slot play_sound).2) ∧
    (∀ position : Point, env.slotOver m.stock position = slot →
      (slot = -1 ∨ m.stock.drag_prev_slot = -1 ∨ (m.stock.get slot).empty = true ∨
        (m.stock.get slot).item = stack.item) →
      m.Conserves env stack slot (MenuStash.drop env m position stack).2) := by
  have hcount : env.quest_item stack.item = false →
      (env.stockAdd m.stock stack slot).2.count =
        stack.quantity - ((env.stockAdd m.stock stack slot).1.total - m.stock.total) := by
    intro hq
    have hl := hleft hq
    unfold ItemStack.count
    cases hempty : (env.stockAdd m.stock stack slot).2.empty
    · simpa using hl
    · have hc := hclear hq hempty
      simp only [if_true]
      omega
  refine ⟨fun play_sound => add_conserves env m stack slot play_sound hne hcount, ?_⟩
  intro position hpos hcond
  subst hpos
  rw [drop_of_delegate env m position stack hne hcond]
  have hf := add_frame env m
    (m.effects ++ [Effect.playSound stack.item, Effect.slotOver position]) stack
    (env.slotOver m.stock position) true (!env.ADD_PLAY_SOUND)
  exact conserves_congr env m stack _ _ _ hf.2.1 hf.2.2.1
    (add_conserves env m stack _ true hne hcount)

/-- C1, amended, at a concrete input: 5 of item 1 added to the grid whose last
cell takes 3 more.  The container stores 3 and hands 2 back; 3 + 2 = 5. -/
theorem quantity_conserved_witness :
    ItemStack.empty ⟨1, 5⟩ = false ∧
    ((specEnv 4).stockAdd nearlyFullGrid.stock ⟨1, 5⟩ (-1)).2 = ⟨1, 2⟩ ∧
    ((specEnv 4).stockAdd nearlyFullGrid.stock ⟨1, 5⟩ (-1)).1.total
      - nearlyFullGrid.stock.total = 3 ∧
    nearlyFullGrid.Conserves (specEnv 4) ⟨1, 5⟩ (-1)
      (MenuStash.add (specEnv 4) nearlyFullGrid ⟨1, 5⟩ (-1) true).2 :=
  ⟨by decide, by decide, by decide,
    (quantity_conserved (specEnv 4) nearlyFullGrid ⟨1, 5⟩ (-1) (by decide)
      (by decide) (by decide)).1 true⟩

end Flare
